import Mathlib

/-!
Verification of the volatility-index pipeline of the
Cryptocurrency-Volatility-Index-CVI repository.

The JavaScript sources are shallowly embedded: pure numeric helpers become
Lean functions over `ℚ` (when the source only uses field/order operations,
so that everything is executable) or over `ℝ` (when the source uses
`Math.sqrt`/`Math.exp`/`Math.log`); JavaScript `null`/`undefined` become
`Option`; fallible code returns `Option`.  Every definition is translated
from the source file and line range named in its doc comment.
-/

namespace CVI

/- ================================================================
   Percentile (src/scripts/fetchOptionsData.js lines 202-206 and the
   equivalent src/scripts/strategyEngine.js lines 29-36).

   `function percentile(arr, p){ if(!arr.length) return null;
      const a=[...arr].sort((x,y)=>x-y);
      const idx=Math.max(0, Math.min((p/100)*(a.length-1), a.length-1));
      const lo=Math.floor(idx), hi=Math.ceil(idx); if (lo===hi) return a[lo];
      const w=idx-lo; return a[lo]*(1-w)+a[hi]*w; }`

   The strategyEngine variant first drops non-finite entries (a no-op in
   this exact-arithmetic model, where every `ℚ` is finite) and clamps the
   index with its own `clamp`, which is definitionally the same
   `max 0 (min _ _)` expression.  Numbers are modelled by `ℚ`.
   ================================================================ -/

/-- Ascending sort with the JS comparator `(x,y)=>x-y`,
modelled by insertion sort on `≤` (a stable ascending sort, as in V8). -/
def jsSortQ (arr : List ℚ) : List ℚ :=
  arr.insertionSort (· ≤ ·)

/-- `percentile` from src/scripts/fetchOptionsData.js lines 202-206. -/
def percentile (arr : List ℚ) (p : ℚ) : Option ℚ :=
  if arr.isEmpty then none
  else
    let a := jsSortQ arr
    let idx : ℚ := max 0 (min ((p/100)*((a.length : ℚ)-1)) ((a.length : ℚ)-1))
    let lo : ℤ := ⌊idx⌋
    let hi : ℤ := ⌈idx⌉
    if lo = hi then some (a.getD lo.toNat 0)
    else
      let w : ℚ := idx - (lo : ℚ)
      some (a.getD lo.toNat 0 * (1-w) + a.getD hi.toNat 0 * w)

lemma jsSortQ_sorted (arr : List ℚ) : (jsSortQ arr).Sorted (· ≤ ·) :=
  List.sorted_insertionSort _ arr

lemma jsSortQ_perm (arr : List ℚ) : List.Perm (jsSortQ arr) arr :=
  List.perm_insertionSort _ arr

lemma jsSortQ_length (arr : List ℚ) : (jsSortQ arr).length = arr.length :=
  (jsSortQ_perm arr).length_eq

/-- In a `≤`-sorted list the entry at index 0 is a lower bound. -/
lemma sorted_getD_zero_le {l : List ℚ} (h : l.Sorted (· ≤ ·)) :
    ∀ x ∈ l, l.getD 0 0 ≤ x := by
  cases l with
  | nil => intro x hx; cases hx
  | cons a t =>
    intro x hx
    rcases List.mem_cons.mp hx with rfl | hxt
    · simp
    · simpa using (List.sorted_cons.mp h).1 x hxt

/-- In a `≤`-sorted list the entry at the last index is an upper bound. -/
lemma sorted_le_getD_last :
    ∀ l : List ℚ, l.Sorted (· ≤ ·) → ∀ x ∈ l, x ≤ l.getD (l.length - 1) 0
  | [], _, x, hx => absurd hx (List.not_mem_nil x)
  | [a], _, x, hx => by
      rcases List.mem_singleton.mp hx with rfl
      simp
  | a :: b :: u, h, x, hx => by
      have hs := List.sorted_cons.mp h
      have hrec := sorted_le_getD_last (b :: u) hs.2
      have hlast : (a :: b :: u).getD ((a :: b :: u).length - 1) 0
          = (b :: u).getD ((b :: u).length - 1) 0 := by
        simp
      rcases List.mem_cons.mp hx with rfl | hxt
      · have hb : x ≤ b := hs.1 b (by simp)
        have hlb : b ≤ (b :: u).getD ((b :: u).length - 1) 0 := hrec b (by simp)
        rw [hlast]
        exact le_trans hb hlb
      · rw [hlast]
        exact hrec x hxt

/-- Evaluation of `percentile` at `p = 0`: the head of the sorted array. -/
lemma percentile_zero (arr : List ℚ) (h : arr ≠ []) :
    percentile arr 0 = some ((jsSortQ arr).getD 0 0) := by
  have hne : arr.isEmpty = false := by simp [h]
  have hlen : 1 ≤ (jsSortQ arr).length := by
    rw [jsSortQ_length]
    exact List.length_pos.mpr h
  have hcast : (1:ℚ) ≤ ((jsSortQ arr).length : ℚ) := by exact_mod_cast hlen
  simp only [percentile, hne, Bool.false_eq_true, if_false]
  have h0 : ((0:ℚ)/100) * (((jsSortQ arr).length : ℚ) - 1) = 0 := by norm_num
  rw [h0]
  have hmin : min (0:ℚ) (((jsSortQ arr).length : ℚ)-1) = 0 := min_eq_left (by linarith)
  rw [hmin, max_self]
  norm_num

/-- Evaluation of `percentile` at `p = 100`: the last entry of the sorted
array. -/
lemma percentile_hundred (arr : List ℚ) (h : arr ≠ []) :
    percentile arr 100 = some ((jsSortQ arr).getD ((jsSortQ arr).length - 1) 0) := by
  have hne : arr.isEmpty = false := by simp [h]
  have hlen : 1 ≤ (jsSortQ arr).length := by
    rw [jsSortQ_length]
    exact List.length_pos.mpr h
  have hcast : (1:ℚ) ≤ ((jsSortQ arr).length : ℚ) := by exact_mod_cast hlen
  simp only [percentile, hne, Bool.false_eq_true, if_false]
  have h1 : ((100:ℚ)/100) * (((jsSortQ arr).length : ℚ) - 1) =
      ((jsSortQ arr).length : ℚ) - 1 := by norm_num
  rw [h1, min_self]
  have hmax : max (0:ℚ) (((jsSortQ arr).length : ℚ)-1) =
      ((jsSortQ arr).length : ℚ)-1 := max_eq_right (by linarith)
  rw [hmax]
  have hnatcast : (((jsSortQ arr).length : ℚ) - 1) =
      (((jsSortQ arr).length - 1 : ℕ) : ℚ) := by
    push_cast [Nat.cast_sub hlen]
    ring
  rw [hnatcast, Int.floor_natCast, Int.ceil_natCast]
  simp

/-- C5.  The percentile function interpolates between order statistics:
`percentile(arr, 0)` is the minimum of `arr`, `percentile(arr, 100)` is the
maximum of `arr`, and `percentile([1,2,3,4,5], 50) = 3`. -/
theorem c5_percentile_order_stats :
    ∀ arr : List ℚ, arr ≠ [] →
      ((∃ m, percentile arr 0 = some m ∧ m ∈ arr ∧ ∀ x ∈ arr, m ≤ x) ∧
       (∃ M, percentile arr 100 = some M ∧ M ∈ arr ∧ ∀ x ∈ arr, x ≤ M)) ∧
      percentile [1, 2, 3, 4, 5] 50 = some 3 := by
  intro arr harr
  have hlen : 0 < (jsSortQ arr).length := by
    rw [jsSortQ_length]
    exact List.length_pos.mpr harr
  constructor
  · constructor
    · refine ⟨(jsSortQ arr).getD 0 0, percentile_zero arr harr, ?_, ?_⟩
      · have hmem : (jsSortQ arr).getD 0 0 ∈ jsSortQ arr := by
          rw [List.getD_eq_getElem _ _ hlen]
          exact List.getElem_mem _
        exact (jsSortQ_perm arr).subset hmem
      · intro x hx
        exact sorted_getD_zero_le (jsSortQ_sorted arr) x
          ((jsSortQ_perm arr).mem_iff.mpr hx)
    · refine ⟨(jsSortQ arr).getD ((jsSortQ arr).length - 1) 0,
        percentile_hundred arr harr, ?_, ?_⟩
      · have hlt : (jsSortQ arr).length - 1 < (jsSortQ arr).length := by omega
        have hmem : (jsSortQ arr).getD ((jsSortQ arr).length - 1) 0 ∈ jsSortQ arr := by
          rw [List.getD_eq_getElem _ _ hlt]
          exact List.getElem_mem _
        exact (jsSortQ_perm arr).subset hmem
      · intro x hx
        exact sorted_le_getD_last (jsSortQ arr) (jsSortQ_sorted arr) x
          ((jsSortQ_perm arr).mem_iff.mpr hx)
  · have hs : jsSortQ [1,2,3,4,5] = [1,2,3,4,5] := by decide
    simp only [percentile, jsSortQ] at hs ⊢
    rw [hs]
    norm_num
    rfl

/-- Witness for C5 at the concrete array `[3, 1, 2]`. -/
theorem c5_percentile_order_stats_witness :
    ([3, 1, 2] : List ℚ) ≠ [] ∧
      (((∃ m, percentile [3, 1, 2] 0 = some m ∧ m ∈ [3, 1, 2] ∧
          ∀ x ∈ ([3, 1, 2] : List ℚ), m ≤ x) ∧
       (∃ M, percentile [3, 1, 2] 100 = some M ∧ M ∈ [3, 1, 2] ∧
          ∀ x ∈ ([3, 1, 2] : List ℚ), x ≤ M)) ∧
      percentile [1, 2, 3, 4, 5] 50 = some 3) :=
  ⟨by decide, c5_percentile_order_stats [3, 1, 2] (by decide)⟩

/- ================================================================
   EMA and crossover detection
   (src/scripts/fetchOptionsData.js lines 197-201 and 207-214; the
   crossover flags recomputed identically in src/scripts/strategyEngine.js
   lines 109-117, whose extra isFinite guards are no-ops over `ℚ`).

   `function ema(arr, period){ const k=2/(period+1); let e=null;
      const out=[];
      for (const x of arr){ e = (e===null)? x : (x*k + e*(1-k));
        out.push(e); } return out; }`

   `const crossedUp   = fPrev <= sPrev && fLast > sLast;`
   `const crossedDown = fPrev >= sPrev && fLast < sLast;`
   where `fLast/sLast` are the last entries of the fast/slow EMA arrays and
   `fPrev/sPrev` the second-to-last (both `undefined`, hence both
   comparisons false, when fewer than two points exist).
   ================================================================ -/

/-- The EMA recurrence after the seed: `e = x*k + e*(1-k)` for each
subsequent element. -/
def emaAux (k : ℚ) (e : ℚ) : List ℚ → List ℚ
  | [] => []
  | x :: xs => (x*k + e*(1-k)) :: emaAux k (x*k + e*(1-k)) xs

/-- `ema` from src/scripts/fetchOptionsData.js lines 197-201: seeded by the
first observation, recurrence with smoothing `k = 2/(period+1)`. -/
def ema (arr : List ℚ) (period : ℚ) : List ℚ :=
  match arr with
  | [] => []
  | x :: xs => x :: emaAux (2/(period+1)) x xs

/-- Fast EMA (period 20) value at index `j` (0 when out of range). -/
def fastAt (y : List ℚ) (j : ℕ) : ℚ := (ema y 20).getD j 0

/-- Slow EMA (period 100) value at index `j` (0 when out of range). -/
def slowAt (y : List ℚ) (j : ℕ) : ℚ := (ema y 100).getD j 0

/-- `crossedUp` from src/scripts/fetchOptionsData.js line 213, as a function
of the numeric IV series: previous fast ≤ previous slow and current
fast > current slow; false when fewer than two points exist. -/
def crossedUp (y : List ℚ) : Bool :=
  if 2 ≤ y.length then
    decide (fastAt y (y.length-2) ≤ slowAt y (y.length-2)) &&
    decide (slowAt y (y.length-1) < fastAt y (y.length-1))
  else false

/-- `crossedDown` from src/scripts/fetchOptionsData.js line 214 (the mirror
condition). -/
def crossedDown (y : List ℚ) : Bool :=
  if 2 ≤ y.length then
    decide (slowAt y (y.length-2) ≤ fastAt y (y.length-2)) &&
    decide (fastAt y (y.length-1) < slowAt y (y.length-1))
  else false

lemma emaAux_length (k e : ℚ) (l : List ℚ) : (emaAux k e l).length = l.length := by
  induction l generalizing e with
  | nil => rfl
  | cons x xs ih => simp [emaAux, ih]

lemma ema_length (y : List ℚ) (p : ℚ) : (ema y p).length = y.length := by
  cases y with
  | nil => rfl
  | cons x xs => simp [ema, emaAux_length]

lemma emaAux_take (k e : ℚ) (l : List ℚ) (m : ℕ) :
    emaAux k e (l.take m) = (emaAux k e l).take m := by
  induction l generalizing e m with
  | nil => simp [emaAux]
  | cons x xs ih =>
    cases m with
    | zero => simp [emaAux]
    | succ m => simp [emaAux, ih]

/-- The EMA of a prefix is the prefix of the EMA (the recurrence is a scan). -/
lemma ema_take (y : List ℚ) (p : ℚ) (m : ℕ) :
    ema (y.take m) p = (ema y p).take m := by
  cases y with
  | nil => simp [ema]
  | cons x xs =>
    cases m with
    | zero => simp [ema]
    | succ m => simp [ema, emaAux_take]

lemma getD_take (l : List ℚ) (m j : ℕ) (d : ℚ) (h : j < m) :
    (l.take m).getD j d = l.getD j d := by
  induction l generalizing m j with
  | nil => simp
  | cons a t ih =>
    cases m with
    | zero => omega
    | succ m =>
      cases j with
      | zero => simp
      | succ j => simpa using ih m j (by omega)

lemma fastAt_take (y : List ℚ) (m j : ℕ) (h : j < m) :
    fastAt (y.take m) j = fastAt y j := by
  unfold fastAt
  rw [ema_take, getD_take _ _ _ _ h]

lemma slowAt_take (y : List ℚ) (m j : ℕ) (h : j < m) :
    slowAt (y.take m) j = slowAt y j := by
  unfold slowAt
  rw [ema_take, getD_take _ _ _ _ h]

/-- Both EMAs are seeded by the first observation, so they agree at index 0. -/
lemma fastAt_zero_eq_slowAt_zero (y : List ℚ) (h : y ≠ []) :
    fastAt y 0 = slowAt y 0 := by
  cases y with
  | nil => exact absurd rfl h
  | cons x xs => simp [fastAt, slowAt, ema]

lemma take_length_of_lt (y : List ℚ) (k : ℕ) (h : k < y.length) :
    (y.take (k+1)).length = k + 1 := by
  simp [List.length_take]
  omega

/-- C6.  Crossover detection compares the fast/slow EMA relationship at the
last two points only: `crossedUp` holds exactly when previous fast ≤
previous slow and current fast > current slow, `crossedDown` is the mirror;
and for a series whose fast EMA is below (≤) the slow EMA before index `i`
and strictly above it from index `i` onward, `crossedUp` fires exactly when
the series ends at index `i` and at no other ending index. -/
theorem c6_crossover_detection :
    (∀ y : List ℚ, crossedUp y = true ↔
       2 ≤ y.length ∧ fastAt y (y.length-2) ≤ slowAt y (y.length-2) ∧
         slowAt y (y.length-1) < fastAt y (y.length-1)) ∧
    (∀ y : List ℚ, crossedDown y = true ↔
       2 ≤ y.length ∧ slowAt y (y.length-2) ≤ fastAt y (y.length-2) ∧
         fastAt y (y.length-1) < slowAt y (y.length-1)) ∧
    (∀ (y : List ℚ) (i : ℕ),
       (∀ j, j < i → fastAt y j ≤ slowAt y j) →
       (∀ j, j < y.length → i ≤ j → slowAt y j < fastAt y j) →
       ∀ k, k < y.length → (crossedUp (y.take (k+1)) = true ↔ k = i)) := by
  refine ⟨?_, ?_, ?_⟩
  · intro y
    by_cases h : 2 ≤ y.length
    · simp [crossedUp, h]
    · simp [crossedUp, h]
  · intro y
    by_cases h : 2 ≤ y.length
    · simp [crossedDown, h]
    · simp [crossedDown, h]
  · intro y i hbelow habove k hk
    have hylen : 0 < y.length := lt_of_le_of_lt (Nat.zero_le k) hk
    have hlen : (y.take (k+1)).length = k + 1 := take_length_of_lt y k hk
    cases k with
    | zero =>
      -- a single point: JS reads index -1 (undefined), crossedUp is false;
      -- and i = 0 is impossible since the two EMAs agree at index 0.
      have hfalse : crossedUp (y.take 1) = false := by
        simp [crossedUp, hlen]
      constructor
      · intro habs
        rw [hfalse] at habs
        cases habs
      · intro h0
        exfalso
        have h00 := habove 0 hylen (by omega)
        have heq := fastAt_zero_eq_slowAt_zero y (List.ne_nil_of_length_pos hylen)
        rw [heq] at h00
        exact lt_irrefl _ h00
    | succ k =>
      have hlen2 : (y.take (k+2)).length = k+2 := by
        simpa using take_length_of_lt y (k+1) hk
      have h2 : 2 ≤ (y.take (k+2)).length := by omega
      have hidx1 : (y.take (k+2)).length - 2 = k := by omega
      have hidx2 : (y.take (k+2)).length - 1 = k + 1 := by omega
      have hcu : crossedUp (y.take (k+2)) = true ↔
          (fastAt y k ≤ slowAt y k ∧ slowAt y (k+1) < fastAt y (k+1)) := by
        simp only [crossedUp, if_pos h2, hidx1, hidx2,
          fastAt_take y (k+2) k (by omega), slowAt_take y (k+2) k (by omega),
          fastAt_take y (k+2) (k+1) (by omega), slowAt_take y (k+2) (k+1) (by omega)]
        simp
      rw [hcu]
      constructor
      · rintro ⟨hle, hlt⟩
        by_contra hne
        rcases Nat.lt_or_ge (k+1) i with hlt2 | hge
        · -- ending index before i: current fast ≤ current slow
          have := hbelow (k+1) hlt2
          exact absurd this (not_le.mpr hlt)
        · -- ending index after i: previous fast already above previous slow
          have hki : i ≤ k := by omega
          have := habove k (by omega) hki
          exact absurd hle (not_le.mpr this)
      · rintro rfl
        exact ⟨hbelow k (by omega), habove (k+1) hk (by omega)⟩

/-- Witness for C6 on the concrete series `[1, 2]` with crossover at `i = 1`. -/
theorem c6_crossover_detection_witness :
    (∀ j, j < 1 → fastAt [1, 2] j ≤ slowAt [1, 2] j) ∧
    (∀ j, j < ([1, 2] : List ℚ).length → 1 ≤ j →
        slowAt [1, 2] j < fastAt [1, 2] j) ∧
    (crossedUp (([1, 2] : List ℚ).take 2) = true ↔ 1 = 1) := by
  have h1 : ∀ j, j < 1 → fastAt [1, 2] j ≤ slowAt [1, 2] j := by
    intro j hj
    interval_cases j
    simp [fastAt, slowAt, ema, emaAux]
  have h2 : ∀ j, j < ([1, 2] : List ℚ).length → 1 ≤ j →
      slowAt [1, 2] j < fastAt [1, 2] j := by
    intro j hj1 hj2
    have hj3 : j < 2 := by simpa using hj1
    have hj4 : j = 1 := by omega
    subst hj4
    show slowAt [1, 2] 1 < fastAt [1, 2] 1
    simp only [slowAt, fastAt, ema, emaAux, List.getD_cons_succ, List.getD_cons_zero]
    norm_num
  exact ⟨h1, h2, c6_crossover_detection.2.2 [1, 2] 1 h1 h2 1 (by norm_num)⟩

/-- C10.  The `crossedUp`/`crossedDown` flags can never both be true for
the same series: their defining conditions require the current fast EMA to
be simultaneously strictly above and strictly below the current slow EMA. -/
theorem c10_crossover_flags_exclusive :
    ∀ y : List ℚ, (crossedUp y && crossedDown y) = false := by
  intro y
  by_cases h : 2 ≤ y.length
  · simp only [crossedUp, crossedDown, if_pos h]
    by_cases h1 : slowAt y (y.length-1) < fastAt y (y.length-1)
    · have h2 : ¬ fastAt y (y.length-1) < slowAt y (y.length-1) := by linarith
      simp [h2]
    · simp [h1]
  · simp [crossedUp, crossedDown, h]

/- ================================================================
   Black–Scholes helpers and the implied-volatility Newton solver
   (src/scripts/fetchOptionsData.js lines 55-90; the same code appears in
   src/unnamed/part_004 lines 101-124).

   Real-number model: JS doubles become `ℝ`, so the source's
   `isFinite` guards (always true here) are noted and dropped; `null`
   becomes `none`.
   ================================================================ -/

/-- `clamp` from src/scripts/fetchOptionsData.js line 56:
`Math.max(lo, Math.min(hi, x))`. -/
noncomputable def clamp (x lo hi : ℝ) : ℝ := max lo (min hi x)

/-- `normPDF` from src/scripts/fetchOptionsData.js line 57. -/
noncomputable def normPDF (x : ℝ) : ℝ :=
  Real.exp (-0.5*x^2) / Real.sqrt (2*Real.pi)

/-- `normCDF` from src/scripts/fetchOptionsData.js lines 58-64
(Abramowitz–Stegun polynomial approximation). -/
noncomputable def normCDF (x : ℝ) : ℝ :=
  let k := 1/(1 + 0.2316419*|x|)
  let poly := ((((1.330274429)*k + (-1.821255978))*k + 1.781477937)*k +
      (-0.356563782))*k + 0.319381530
  let cnd := 1 - normPDF x * poly
  if 0 ≤ x then cnd else 1 - cnd

/-- `bsCall` from src/scripts/fetchOptionsData.js lines 65-68. -/
noncomputable def bsCall (S K T r s : ℝ) : ℝ :=
  let st := Real.sqrt T
  let d1 := (Real.log (S/K) + (r + 0.5*s^2)*T)/(s*st)
  let d2 := d1 - s*st
  S*normCDF d1 - K*Real.exp (-(r*T))*normCDF d2

/-- `vega` from src/scripts/fetchOptionsData.js lines 69-72. -/
noncomputable def vega (S K T r s : ℝ) : ℝ :=
  let st := Real.sqrt T
  let d1 := (Real.log (S/K) + (r + 0.5*s^2)*T)/(s*st)
  S*st*normPDF d1

/-- The Newton iteration of `impliedVol`
(src/scripts/fetchOptionsData.js lines 81-88), with the iteration budget as
fuel.  Exhausting the budget, or hitting the vega floor `v <= 1e-8` before
convergence, returns `none` (the JS `break` followed by `return null`);
the `!isFinite(v)` disjunct of the floor test is always false over `ℝ`. -/
noncomputable def newtonIter (S K T r callPx : ℝ) : ℕ → ℝ → Option ℝ
  | 0, _ => none
  | n+1, s =>
    let model := bsCall S K T r s
    let diff := model - callPx
    if |diff| < 0.0001 then some (clamp s 0.0001 5)
    else
      let v := vega S K T r s
      if v ≤ 0.00000001 then none
      else newtonIter S K T r callPx n (clamp (s - diff/v) 0.0001 5)

/-- The `callPx` binding of `impliedVol`
(src/scripts/fetchOptionsData.js line 76): the call price itself, or the
put price converted through put-call parity. -/
noncomputable def callPxOf (price S K T r : ℝ) (isCall : Bool) : ℝ :=
  if isCall then price else price + S - K*Real.exp (-(r*T))

/-- `impliedVol` from src/scripts/fetchOptionsData.js lines 74-90.
Newton on the call price only; puts are converted through put-call parity
first.  The `!isFinite(callPx)` guard is always false over `ℝ` and is
dropped. -/
noncomputable def impliedVol (price S K T r : ℝ) (isCall : Bool) : Option ℝ :=
  if price ≤ 0 ∨ S ≤ 0 ∨ K ≤ 0 ∨ T ≤ 0 then none
  else if callPxOf price S K T r isCall ≤ 0 then none
  else
    newtonIter S K T r (callPxOf price S K T r isCall) 100
      (clamp (Real.sqrt (2*Real.pi/T) *
        (callPxOf price S K T r isCall / max S 0.000000001)) 0.0001 3.0)

lemma clamp_le {x lo hi : ℝ} (h : lo ≤ hi) : clamp x lo hi ≤ hi := by
  unfold clamp
  exact max_le h (min_le_left _ _)

lemma le_clamp (x lo hi : ℝ) : lo ≤ clamp x lo hi := le_max_left _ _

lemma newtonIter_safe (S K T r px : ℝ) :
    ∀ (n : ℕ) (s : ℝ), newtonIter S K T r px n s = none ∨
      ∃ x, newtonIter S K T r px n s = some x ∧ 0.0001 ≤ x ∧ x ≤ 5 := by
  intro n
  induction n with
  | zero => intro s; exact Or.inl rfl
  | succ n ih =>
    intro s
    unfold newtonIter
    dsimp only
    split_ifs with h1 h2
    · exact Or.inr ⟨clamp s 0.0001 5, rfl, le_clamp _ _ _, clamp_le (by norm_num)⟩
    · exact Or.inl rfl
    · exact ih _

/-- C2.  The implied-volatility solver returns either a volatility clamped
into the safe domain `[0.0001, 5]` or `null` (over `ℝ` every such value is
finite, so NaN/Infinity cannot be returned); and whenever the pricing
residual has not converged and vega is at or below the `1e-8` floor, the
iteration exits with `null` before performing the Newton division. -/
theorem c2_impliedVol_safe :
    (∀ (price S K T r : ℝ) (isCall : Bool),
        impliedVol price S K T r isCall = none ∨
        ∃ x, impliedVol price S K T r isCall = some x ∧ 0.0001 ≤ x ∧ x ≤ 5) ∧
    (∀ (S K T r px s : ℝ) (n : ℕ),
        |bsCall S K T r s - px| < 0.0001 ∨
        0.00000001 < vega S K T r s ∨
        newtonIter S K T r px (n+1) s = none) := by
  constructor
  · intro price S K T r isCall
    unfold impliedVol
    split_ifs with h1 h2
    · exact Or.inl rfl
    · exact Or.inl rfl
    · exact newtonIter_safe _ _ _ _ _ _ _
  · intro S K T r px s n
    by_cases h1 : |bsCall S K T r s - px| < 0.0001
    · exact Or.inl h1
    · by_cases h2 : vega S K T r s ≤ 0.00000001
      · refine Or.inr (Or.inr ?_)
        unfold newtonIter
        dsimp only
        rw [if_neg h1, if_pos h2]
      · exact Or.inr (Or.inl (not_le.mp h2))

/- ================================================================
   Risk / sizing engine (src/scripts/strategyEngine.js lines 38-70) and
   paper-order generation (lines 134-167).

   `const SQRT_365 = Math.sqrt(365);`
   `function toSigmaDaily(iv){ return isFinite(iv) ? iv / SQRT_365 : null; }`
   `function toERI(iv){ const sd = toSigmaDaily(iv);
      return isFinite(sd)? 100*sd : null; }`
   `function sizeHint(spot, iv, budget, horizonDays){ ... }`

   Over `ℝ` the `isFinite` guards are always true and are dropped; the
   env-default `DEFAULT_LEVERAGE = 1` is inlined.
   ================================================================ -/

/-- `SQRT_365` from src/scripts/strategyEngine.js line 42. -/
noncomputable def SQRT_365 : ℝ := Real.sqrt 365

/-- `toSigmaDaily` from src/scripts/strategyEngine.js line 50. -/
noncomputable def toSigmaDaily (iv : ℝ) : ℝ := iv / SQRT_365

/-- `toERI` from src/scripts/strategyEngine.js line 51. -/
noncomputable def toERI (iv : ℝ) : ℝ := 100 * toSigmaDaily iv

/-- The record returned by `sizeHint`
(src/scripts/strategyEngine.js lines 62-69). -/
structure SizeHintR where
  horizon_days : ℝ
  risk_budget_usd : ℝ
  expected_move_usd : ℝ
  qty : ℝ
  notional_usd : ℝ
  leverage : ℝ

/-- `sizeHint` from src/scripts/strategyEngine.js lines 57-70:
`expected_move = spot * sigma_d * sqrt(max(0.0001, horizonDays))`,
`qty = budget / expected_move`, guarded by
`if (!isFinite(spot) || !isFinite(sd) || spot<=0 || sd<=0) return null`
(the `isFinite` disjuncts are always false over `ℝ`). -/
noncomputable def sizeHint (spot iv budget horizonDays : ℝ) : Option SizeHintR :=
  if spot ≤ 0 ∨ toSigmaDaily iv ≤ 0 then none
  else
    some { horizon_days := horizonDays,
           risk_budget_usd := budget,
           expected_move_usd := spot * toSigmaDaily iv * Real.sqrt (max 0.0001 horizonDays),
           qty := budget / (spot * toSigmaDaily iv * Real.sqrt (max 0.0001 horizonDays)),
           notional_usd :=
             budget / (spot * toSigmaDaily iv * Real.sqrt (max 0.0001 horizonDays)) * spot,
           leverage := 1 }

lemma sqrt365_pos : (0:ℝ) < Real.sqrt 365 := Real.sqrt_pos.mpr (by norm_num)

/-- C7.  Risk math: `sigma_d = iv / sqrt(365)`, `ERI = 100 * sigma_d`,
`expectedMove = spot * sigma_d * sqrt(horizonDays)`,
`qty = riskBudget / expectedMove`, `notional = qty * spot`; and the sizing
function returns `null` for non-positive spot or non-positive daily sigma. -/
theorem c7_risk_sizing_math :
    (∀ iv : ℝ, toSigmaDaily iv = iv / Real.sqrt 365 ∧
       toERI iv = 100 * (iv / Real.sqrt 365)) ∧
    (∀ spot iv budget h : ℝ, 0 < spot → 0 < iv → 0.0001 ≤ h →
       sizeHint spot iv budget h =
         some { horizon_days := h, risk_budget_usd := budget,
                expected_move_usd := spot * (iv / Real.sqrt 365) * Real.sqrt h,
                qty := budget / (spot * (iv / Real.sqrt 365) * Real.sqrt h),
                notional_usd :=
                  budget / (spot * (iv / Real.sqrt 365) * Real.sqrt h) * spot,
                leverage := 1 }) ∧
    (∀ spot iv budget h : ℝ, spot ≤ 0 ∨ iv ≤ 0 →
       sizeHint spot iv budget h = none) := by
  refine ⟨?_, ?_, ?_⟩
  · intro iv
    exact ⟨rfl, rfl⟩
  · intro spot iv budget h hspot hiv hh
    have hsd : 0 < toSigmaDaily iv := div_pos hiv sqrt365_pos
    have hmax : max (0.0001:ℝ) h = h := max_eq_right hh
    unfold sizeHint
    rw [if_neg (by push_neg; exact ⟨hspot, hsd⟩)]
    rw [hmax]
    rfl
  · intro spot iv budget h hneg
    unfold sizeHint
    rcases hneg with hs | hiv
    · rw [if_pos (Or.inl hs)]
    · have hsd : toSigmaDaily iv ≤ 0 :=
        div_nonpos_iff.mpr (Or.inr ⟨hiv, le_of_lt sqrt365_pos⟩)
      rw [if_pos (Or.inr hsd)]

/-- Witness for C7 at `spot = 100`, `iv = 1`, `budget = 100`, `h = 1`. -/
theorem c7_risk_sizing_math_witness :
    (0:ℝ) < 100 ∧ (0:ℝ) < 1 ∧ (0.0001:ℝ) ≤ 1 ∧
      sizeHint 100 1 100 1 =
        some { horizon_days := 1, risk_budget_usd := 100,
               expected_move_usd := 100 * ((1:ℝ) / Real.sqrt 365) * Real.sqrt 1,
               qty := 100 / (100 * ((1:ℝ) / Real.sqrt 365) * Real.sqrt 1),
               notional_usd :=
                 100 / (100 * ((1:ℝ) / Real.sqrt 365) * Real.sqrt 1) * 100,
               leverage := 1 } :=
  ⟨by norm_num, by norm_num, by norm_num,
    c7_risk_sizing_math.2.1 100 1 100 1 (by norm_num) (by norm_num) (by norm_num)⟩

/-- A paper order (src/scripts/strategyEngine.js lines 140-165). -/
structure OrderR where
  t : String
  symbol : String
  type : String
  side : String
  reason : String
  qty : ℝ
  price : String
  exchange : String
  risk_budget_usd : ℝ
  horizon_days : ℝ

/-- The buy/entry order pushed at src/scripts/strategyEngine.js
lines 140-151. -/
def buyOrder (t symbol : String) (sz : SizeHintR) : OrderR :=
  { t := t, symbol := symbol, type := "entry", side := "buy",
    reason := "EMA20 > EMA100 and ERI <= median", qty := sz.qty,
    price := "mkt", exchange := "paper",
    risk_budget_usd := sz.risk_budget_usd,
    horizon_days := sz.horizon_days }

/-- The sell/exit order pushed at src/scripts/strategyEngine.js
lines 153-165. -/
def sellOrder (t symbol : String) (sz : SizeHintR) : OrderR :=
  { t := t, symbol := symbol, type := "exit", side := "sell",
    reason := "EMA20 < EMA100 and ERI >= 90th pct", qty := sz.qty,
    price := "mkt", exchange := "paper",
    risk_budget_usd := sz.risk_budget_usd,
    horizon_days := sz.horizon_days }

/-- Order generation from src/scripts/strategyEngine.js lines 134-167:
orders are produced only when `size` is non-null and `eri` is finite
(`if (size && isFinite(eri))`); a buy/entry order when
`crossedUp && eri <= (p50 ?? eri)` and a sell/exit order when
`crossedDown && p90 != null && eri >= p90`. -/
noncomputable def genOrders (t symbol : String) (size : Option SizeHintR)
    (eri : Option ℝ) (p50 p90 : Option ℝ)
    (crossUp crossDown : Bool) : List OrderR :=
  match size, eri with
  | some sz, some e =>
      (if crossUp = true ∧ e ≤ p50.getD e then [buyOrder t symbol sz] else []) ++
      (match p90 with
       | some qv => if crossDown = true ∧ qv ≤ e then [sellOrder t symbol sz] else []
       | none => [])
  | _, _ => []

lemma genOrders_eq (t symbol : String) (sz : SizeHintR) (e m q : ℝ)
    (up down : Bool) :
    genOrders t symbol (some sz) (some e) (some m) (some q) up down =
      (if up = true ∧ e ≤ m then [buyOrder t symbol sz] else []) ++
      (if down = true ∧ q ≤ e then [sellOrder t symbol sz] else []) := rfl

/-- C8.  With sizing available and finite ERI and percentiles: a buy/entry
order is emitted exactly when the upward crossover fired and ERI ≤ p50, a
sell/exit order exactly when the downward crossover fired and ERI ≥ p90;
in the buy case exactly one entry order is produced, its qty is the sizing
engine's qty, which equals riskBudget / expectedMove. -/
theorem c8_order_generation :
    ∀ (t symbol : String) (sz : SizeHintR) (e m q : ℝ) (up down : Bool),
      ((∃ o ∈ genOrders t symbol (some sz) (some e) (some m) (some q) up down,
          o.side = "buy") ↔ (up = true ∧ e ≤ m)) ∧
      ((∃ o ∈ genOrders t symbol (some sz) (some e) (some m) (some q) up down,
          o.side = "sell") ↔ (down = true ∧ q ≤ e)) ∧
      (up = true → e ≤ m →
        ((genOrders t symbol (some sz) (some e) (some m) (some q) up down).filter
            (fun o => o.type == "entry")).length = 1 ∧
        (∀ o ∈ genOrders t symbol (some sz) (some e) (some m) (some q) up down,
            o.type = "entry" → o.qty = sz.qty)) ∧
      (∀ spot iv budget h : ℝ, sizeHint spot iv budget h = some sz →
        sz.qty = sz.risk_budget_usd / sz.expected_move_usd) := by
  intro t symbol sz e m q up down
  simp only [genOrders_eq]
  refine ⟨?_, ?_, ?_, ?_⟩
  · by_cases hup : up = true ∧ e ≤ m <;>
      by_cases hdn : down = true ∧ q ≤ e <;>
      simp [hup, hdn, buyOrder, sellOrder]
  · by_cases hup : up = true ∧ e ≤ m <;>
      by_cases hdn : down = true ∧ q ≤ e <;>
      simp [hup, hdn, buyOrder, sellOrder]
  · intro hup hle
    constructor
    · by_cases hdn : down = true ∧ q ≤ e <;>
        simp [hup, hle, hdn, buyOrder, sellOrder, List.filter]
    · intro o ho _
      rw [if_pos (And.intro hup hle)] at ho
      by_cases hdn : down = true ∧ q ≤ e
      · rw [if_pos hdn] at ho
        rcases List.mem_append.mp ho with h1 | h2
        · rw [List.mem_singleton.mp h1]; rfl
        · rw [List.mem_singleton.mp h2]; rfl
      · rw [if_neg hdn] at ho
        have h1 : o = buyOrder t symbol sz := by simpa using ho
        rw [h1]
        rfl
  · intro spot iv budget h hsz
    unfold sizeHint at hsz
    by_cases hc : spot ≤ 0 ∨ toSigmaDaily iv ≤ 0
    · rw [if_pos hc] at hsz
      cases hsz
    · rw [if_neg hc] at hsz
      injection hsz with hrec
      rw [← hrec]

/-- Witness for C8: an upward crossover with ERI 1 ≤ p50 2 produces exactly
one entry order, with the sizing record produced by `sizeHint` at
`spot = 100`, `iv = sqrt 365`, `budget = 100`, `horizon = 1`. -/
theorem c8_order_generation_witness :
    (true = true ∧ (1:ℝ) ≤ 2) ∧
    sizeHint 100 (Real.sqrt 365) 100 1 =
      some (⟨1, 100, 100, 1, 100, 1⟩ : SizeHintR) ∧
    ((genOrders "t0" "BTC" (some (⟨1, 100, 100, 1, 100, 1⟩ : SizeHintR))
        (some 1) (some 2) (some 5) true false).filter
          (fun o => o.type == "entry")).length = 1 ∧
    (⟨1, 100, 100, 1, 100, 1⟩ : SizeHintR).qty =
      (⟨1, 100, 100, 1, 100, 1⟩ : SizeHintR).risk_budget_usd /
        (⟨1, 100, 100, 1, 100, 1⟩ : SizeHintR).expected_move_usd := by
  have h1 : toSigmaDaily (Real.sqrt 365) = 1 := div_self (ne_of_gt sqrt365_pos)
  have hsz : sizeHint 100 (Real.sqrt 365) 100 1 =
      some (⟨1, 100, 100, 1, 100, 1⟩ : SizeHintR) := by
    unfold sizeHint
    rw [if_neg (by
      push_neg
      refine ⟨by norm_num, ?_⟩
      rw [h1]
      norm_num)]
    rw [h1]
    have hmax : max (0.0001:ℝ) 1 = 1 := by norm_num
    rw [hmax, Real.sqrt_one]
    simp only [Option.some.injEq, SizeHintR.mk.injEq]
    norm_num
  refine ⟨⟨rfl, by norm_num⟩, hsz, ?_, ?_⟩
  · exact ((c8_order_generation "t0" "BTC" ⟨1, 100, 100, 1, 100, 1⟩ 1 2 5
      true false).2.2.1 rfl (by norm_num)).1
  · exact (c8_order_generation "t0" "BTC" ⟨1, 100, 100, 1, 100, 1⟩ 1 2 5
      true false).2.2.2 100 (Real.sqrt 365) 100 1 hsz

/- ================================================================
   Volatility surface: smile points, sorting, display banding, base-IV
   settling and synthetic-smile fallback
   (src/scripts/fetchOptionsData.js lines 92-107 and 313-389).
   ================================================================ -/

/-- A smile point `{ strike, iv }`. -/
structure SmilePoint where
  strike : ℝ
  iv : ℝ

/-- JS `Math.round` (round half away from zero upward): `⌊x + 1/2⌋`. -/
noncomputable def jsRound (x : ℝ) : ℝ := (⌊x + 1/2⌋ : ℤ)

/-- `buildSyntheticSmile` from src/scripts/fetchOptionsData.js lines 96-107:
`n = 7` strikes spanning `S*(1±width)` with `width = 0.35`, and the convex
skew `iv = Math.max(0.01, atm*(1 + 2*m*m - 0.25*m))` in log-moneyness
`m = log(K/S)`, clamped into `[0.01, 3]`. -/
noncomputable def buildSyntheticSmile (S atm : ℝ) : List SmilePoint :=
  let n : ℕ := 7
  let width : ℝ := 0.35
  let ks := (List.range n).map (fun i : ℕ => S * (1 - width + 2*width*((i:ℝ)/((n:ℝ)-1))))
  ks.map (fun K =>
    { strike := jsRound K,
      iv := clamp (max 0.01 (atm * (1 + 2.0*(Real.log (K/S))^2 + (-0.25)*Real.log (K/S))))
              0.01 3.0 })

/-- Strike ordering on smile points (the JS comparator
`(a,b)=>a.strike-b.strike`). -/
def strikeLE (p q : SmilePoint) : Prop := p.strike ≤ q.strike

noncomputable instance : DecidableRel strikeLE :=
  fun p q => inferInstanceAs (Decidable (p.strike ≤ q.strike))

instance : IsTotal SmilePoint strikeLE := ⟨fun p q => le_total p.strike q.strike⟩

instance : IsTrans SmilePoint strikeLE := ⟨fun _ _ _ h1 h2 => le_trans h1 h2⟩

/-- `smile.sort((a,b)=>a.strike-b.strike)` from
src/scripts/fetchOptionsData.js line 323. -/
noncomputable def sortStrike (l : List SmilePoint) : List SmilePoint :=
  l.insertionSort strikeLE

/-- The display band of src/scripts/fetchOptionsData.js lines 340-341:
keep strikes within ±20% of spot when at least 3 survive. -/
noncomputable def displayBandFilter (S : ℝ) (smile : List SmilePoint) : List SmilePoint :=
  let db := smile.filter (fun p => |p.strike/S - 1| ≤ 0.20)
  if 3 ≤ db.length then db else smile

/-- The base-IV settling of src/scripts/fetchOptionsData.js lines 350-371:
when both summary IVs are still null, derive them from the smile (median and
near-band average), else from realized vol `rv`, else from the mean of the
recent stored IVs, else the neutral `0.5`, clamped into `[0.05, 2]`. -/
noncomputable def settleBaseIVs (S : ℝ) (smile : List SmilePoint)
    (atm vw rv : Option ℝ) (recentIVs : List ℝ) : Option ℝ × Option ℝ :=
  if atm = none ∧ vw = none then
    if smile.isEmpty = false then
      let median := (smile.getD (smile.length / 2) ⟨0, 0⟩).iv
      let near := smile.filter (fun p => |p.strike/S - 1| ≤ 0.10)
      let vwv := if near.isEmpty = false then (near.map (·.iv)).sum / near.length
                 else (smile.map (·.iv)).sum / smile.length
      (some median, some vwv)
    else
      let rv2 : Option ℝ := match rv with
        | some r0 => some r0
        | none => if recentIVs.isEmpty = false
                  then some (recentIVs.sum / recentIVs.length) else none
      let val := rv2.getD 0.5
      (some (clamp val 0.05 2.0), some (clamp val 0.05 2.0))
  else (atm, vw)

/-- The synthetic-smile fallback of src/scripts/fetchOptionsData.js
lines 373-380 together with the `synthetic` flag written to
`smile_meta.json` at lines 383-389: when the smile is empty and the settled
base `Number(vega_weighted_iv ?? atm_iv)` is positive, write
`buildSyntheticSmile(S, clamp(base, 0.05, 2.0))` tagged `synthetic: true`;
otherwise write the real smile tagged `synthetic: false`. -/
noncomputable def synthesizeIfEmpty (S : ℝ) (smile : List SmilePoint)
    (atm vw : Option ℝ) : List SmilePoint × Bool :=
  if smile.isEmpty then
    let base : ℝ := match vw, atm with
      | some v, _ => v
      | none, some a0 => a0
      | none, none => 0
    if 0 < base then (buildSyntheticSmile S (clamp base 0.05 2.0), true)
    else (smile, false)
  else (smile, false)

/-- The composition of settling and synthesis
(src/scripts/fetchOptionsData.js lines 350-389): the pair
(written smile, synthetic flag). -/
noncomputable def finalizeSmile (S : ℝ) (smile : List SmilePoint)
    (atm vw rv : Option ℝ) (recentIVs : List ℝ) : List SmilePoint × Bool :=
  synthesizeIfEmpty S smile
    (settleBaseIVs S smile atm vw rv recentIVs).1
    (settleBaseIVs S smile atm vw rv recentIVs).2

lemma buildSyntheticSmile_length (S atm : ℝ) :
    (buildSyntheticSmile S atm).length = 7 := by
  unfold buildSyntheticSmile
  rw [List.length_map, List.length_map, List.length_range]

lemma buildSyntheticSmile_ne_nil (S atm : ℝ) : buildSyntheticSmile S atm ≠ [] := by
  apply List.ne_nil_of_length_pos
  rw [buildSyntheticSmile_length]
  norm_num

/-- C3.  Under the pipeline invariant that the summary IVs can only be set
when a real smile exists, the written smile is never empty — when no real
smile could be built the synthetic smile (derived from the settled,
clamped base IV) is written instead — and the `synthetic` flag is true
exactly when the smile was synthesized. -/
theorem c3_synthetic_smile_fallback :
    ∀ (S : ℝ) (smile : List SmilePoint) (atm vw rv : Option ℝ)
      (recentIVs : List ℝ),
      (smile = [] → atm = none ∧ vw = none) →
      (finalizeSmile S smile atm vw rv recentIVs).1 ≠ [] ∧
      ((finalizeSmile S smile atm vw rv recentIVs).2 = true ↔ smile = []) ∧
      (smile = [] → ∃ base, 0.05 ≤ base ∧ base ≤ 2 ∧
        (finalizeSmile S smile atm vw rv recentIVs).1 = buildSyntheticSmile S base) := by
  intro S smile atm vw rv recentIVs hinv
  by_cases hsm : smile = []
  · obtain ⟨hatm, hvw⟩ := hinv hsm
    subst hsm hatm
    subst hvw
    have hemp : (([] : List SmilePoint).isEmpty = false) = False := by simp
    have hsettle : settleBaseIVs S [] none none rv recentIVs =
        (some (clamp ((match rv with
            | some r0 => some r0
            | none => if recentIVs.isEmpty = false
                      then some (recentIVs.sum / recentIVs.length)
                      else none).getD 0.5) 0.05 2.0),
         some (clamp ((match rv with
            | some r0 => some r0
            | none => if recentIVs.isEmpty = false
                      then some (recentIVs.sum / recentIVs.length)
                      else none).getD 0.5) 0.05 2.0)) := by
      unfold settleBaseIVs
      rw [if_pos ⟨rfl, rfl⟩]
      simp
    set c := clamp ((match rv with
        | some r0 => some r0
        | none => if recentIVs.isEmpty = false
                  then some (recentIVs.sum / recentIVs.length)
                  else none).getD 0.5) 0.05 2.0 with hc
    have hcpos : (0:ℝ) < c := lt_of_lt_of_le (by norm_num) (le_clamp _ _ _)
    have hfin : finalizeSmile S [] none none rv recentIVs =
        (buildSyntheticSmile S (clamp c 0.05 2.0), true) := by
      unfold finalizeSmile
      rw [hsettle]
      unfold synthesizeIfEmpty
      simp only [List.isEmpty_nil, if_true]
      rw [if_pos hcpos]
    refine ⟨?_, ?_, ?_⟩
    · rw [hfin]
      exact buildSyntheticSmile_ne_nil _ _
    · rw [hfin]
      simp
    · intro _
      exact ⟨clamp c 0.05 2.0, le_clamp _ _ _,
        le_trans (clamp_le (by norm_num)) (by norm_num), by rw [hfin]⟩
  · have hne : smile.isEmpty = false := by
      simpa [List.isEmpty_iff] using hsm
    have hfin : finalizeSmile S smile atm vw rv recentIVs = (smile, false) := by
      unfold finalizeSmile synthesizeIfEmpty
      rw [hne]
      simp
    refine ⟨?_, ?_, ?_⟩
    · rw [hfin]
      exact hsm
    · rw [hfin]
      simp [hsm]
    · intro h
      exact absurd h hsm

/-- Witness for C3 on a run with an empty smile and all fallbacks missing
(`S = 1`, no realized vol, no stored IVs). -/
theorem c3_synthetic_smile_fallback_witness :
    (([] : List SmilePoint) = [] → (none : Option ℝ) = none ∧ (none : Option ℝ) = none) ∧
    ((finalizeSmile 1 [] none none none []).1 ≠ [] ∧
     ((finalizeSmile 1 [] none none none []).2 = true ↔ ([] : List SmilePoint) = []) ∧
     (([] : List SmilePoint) = [] → ∃ base, 0.05 ≤ base ∧ base ≤ 2 ∧
        (finalizeSmile 1 [] none none none []).1 = buildSyntheticSmile 1 base)) :=
  ⟨fun _ => ⟨rfl, rfl⟩,
   c3_synthetic_smile_fallback 1 [] none none none [] (fun _ => ⟨rfl, rfl⟩)⟩

lemma sortStrike_pairwise (l : List SmilePoint) :
    (sortStrike l).Pairwise strikeLE :=
  List.sorted_insertionSort strikeLE l

lemma displayBandFilter_pairwise (S : ℝ) {l : List SmilePoint}
    (h : l.Pairwise strikeLE) : (displayBandFilter S l).Pairwise strikeLE := by
  unfold displayBandFilter
  dsimp only
  split_ifs with h3
  · exact List.Pairwise.sublist (List.filter_sublist l) h
  · exact h

lemma buildSyntheticSmile_sorted (S atm : ℝ) (hS : 0 ≤ S) :
    (buildSyntheticSmile S atm).Pairwise strikeLE := by
  unfold buildSyntheticSmile
  dsimp only
  rw [List.pairwise_map, List.pairwise_map]
  refine (List.pairwise_lt_range 7).imp ?_
  intro i j hij
  show jsRound _ ≤ jsRound _
  unfold jsRound
  have hcast : (i:ℝ) ≤ (j:ℝ) := Nat.cast_le.mpr (le_of_lt hij)
  gcongr

/-- The smile actually written to `cvi.json`
(src/scripts/fetchOptionsData.js line 383), as a function of the raw
accumulated candidate points: they are sorted by strike (line 323),
display-banded (lines 340-341), and replaced by the synthetic smile when
empty (lines 373-380). -/
noncomputable def writtenSmile (pts : List SmilePoint) (S : ℝ)
    (atm vw rv : Option ℝ) (recentIVs : List ℝ) : List SmilePoint :=
  (finalizeSmile S (displayBandFilter S (sortStrike pts)) atm vw rv recentIVs).1

/-- C9.  For any raw candidate points and nonnegative spot, the smile at
the moment it is written — filtered, put-augmented, display-banded, or
synthesized — is non-decreasing by strike. -/
theorem c9_written_smile_sorted :
    ∀ (pts : List SmilePoint) (S : ℝ) (atm vw rv : Option ℝ)
      (recentIVs : List ℝ),
      0 ≤ S → (writtenSmile pts S atm vw rv recentIVs).Pairwise strikeLE := by
  intro pts S atm vw rv recentIVs hS
  unfold writtenSmile
  have hpw : (displayBandFilter S (sortStrike pts)).Pairwise strikeLE :=
    displayBandFilter_pairwise S (sortStrike_pairwise pts)
  unfold finalizeSmile synthesizeIfEmpty
  by_cases he : (displayBandFilter S (sortStrike pts)).isEmpty
  · simp only [he, if_true]
    split_ifs with hb
    · exact buildSyntheticSmile_sorted S _ hS
    · exact hpw
  · simp only [Bool.not_eq_true] at he
    simp only [he, Bool.false_eq_true, if_false]
    exact hpw

/-- Witness for C9 at spot `1` with no candidate points. -/
theorem c9_written_smile_sorted_witness :
    (0:ℝ) ≤ 1 ∧ (writtenSmile [] 1 none none none []).Pairwise strikeLE :=
  ⟨by norm_num, c9_written_smile_sorted [] 1 none none none [] (by norm_num)⟩

/- ================================================================
   Time-series tick-forward guarantee
   (src/unnamed/part_004: `cloneLastRowWithNewTime` lines 217-227, the
   try/catch append skeleton of `buildForAsset` lines 373-392, and the trim
   at line 395; the spec's tick-forward sentence is written from this
   variant, whose header comments document the guarantee).

   Rows are data only (no transcendental math), so numeric fields are
   modelled by `ℚ`; nullable fields by `Option`; the ISO timestamp by `ℕ`;
   the string `TARGET_DAYS.toFixed(2)` (= "30.00") by the rational `30`.
   `ALWAYS_TICK` defaults to true (`(process.env.ALWAYS_TICK||'1')!=='0'`).
   ================================================================ -/

/-- A stored time-series row `{t, spot, days_to_expiry, atm_iv,
vega_weighted_iv}`. -/
structure TsRow where
  t : ℕ
  spot : Option ℚ
  days_to_expiry : Option ℚ
  atm_iv : Option ℚ
  vega_weighted_iv : Option ℚ
  deriving DecidableEq

/-- `TARGET_DAYS` (src/unnamed/part_004 line 77). -/
def TARGET_DAYS : ℚ := 30

/-- `MAX_TS_POINTS` (src/unnamed/part_004 line 78). -/
def MAX_TS_POINTS : ℕ := 2000

/-- `ALWAYS_TICK` default (src/unnamed/part_004 line 36). -/
def ALWAYS_TICK : Bool := true

/-- `cloneLastRowWithNewTime` from src/unnamed/part_004 lines 217-227:
the last row with a fresh timestamp, null-coalescing `days_to_expiry`
to `TARGET_DAYS.toFixed(2)`; `null` when the series is empty. -/
def cloneLastRowWithNewTime (series : List TsRow) (now : ℕ) : Option TsRow :=
  match series.getLast? with
  | none => none
  | some last =>
      some { t := now,
             spot := last.spot,
             days_to_expiry := some (last.days_to_expiry.getD TARGET_DAYS),
             atm_iv := last.atm_iv,
             vega_weighted_iv := last.vega_weighted_iv }

/-- The neutral seed row pushed on a cold-start failure
(src/unnamed/part_004 line 389):
`{ t: nowISO, spot: 100, days_to_expiry: "30.00", atm_iv: 0.2,
vega_weighted_iv: 0.2 }`. -/
def seedRow (now : ℕ) : TsRow :=
  { t := now, spot := some 100, days_to_expiry := some TARGET_DAYS,
    atm_iv := some (1/5), vega_weighted_iv := some (1/5) }

/-- The append skeleton of `buildForAsset`
(src/unnamed/part_004 lines 373-392): a successful build (`outcome = some
row`, even when every upstream source returned null and fallback values
were used) pushes the new row; a thrown error (`outcome = none`) with
`ALWAYS_TICK` pushes the clone of the last row, or the neutral seed when
no previous row exists. -/
def buildTick (series : List TsRow) (now : ℕ) (outcome : Option TsRow) :
    List TsRow :=
  match outcome with
  | some row => series ++ [row]
  | none =>
      if ALWAYS_TICK then
        match cloneLastRowWithNewTime series now with
        | some clone => series ++ [clone]
        | none => series ++ [seedRow now]
      else series

/-- The trim of src/unnamed/part_004 line 395:
`if (series.length > MAX_TS_POINTS) series =
series.slice(series.length - MAX_TS_POINTS)`. -/
def trimSeries (series : List TsRow) : List TsRow :=
  if MAX_TS_POINTS < series.length then series.drop (series.length - MAX_TS_POINTS)
  else series

/-- C1.  Tick-forward: every run appends exactly one row; on failure over a
non-empty series the appended row clones the previous last row's
spot/IV fields (and its `days_to_expiry` whenever that field was present)
with only the timestamp updated; on failure over an empty series the
neutral seed row is appended; and the stored (trimmed) series is never
empty after a run. -/
theorem c1_tick_forward :
    ∀ (series : List TsRow) (now : ℕ) (outcome : Option TsRow),
      ((buildTick series now outcome).length = series.length + 1) ∧
      (series = [] → outcome = none → buildTick series now outcome = [seedRow now]) ∧
      (∀ last, series.getLast? = some last → outcome = none →
        ∃ r, buildTick series now outcome = series ++ [r] ∧ r.t = now ∧
          r.spot = last.spot ∧ r.atm_iv = last.atm_iv ∧
          r.vega_weighted_iv = last.vega_weighted_iv ∧
          (last.days_to_expiry ≠ none → r.days_to_expiry = last.days_to_expiry)) ∧
      trimSeries (buildTick series now outcome) ≠ [] := by
  intro series now outcome
  have hlen : (buildTick series now outcome).length = series.length + 1 := by
    cases outcome with
    | some row => simp [buildTick]
    | none =>
      cases hcl : cloneLastRowWithNewTime series now with
      | none => simp [buildTick, ALWAYS_TICK, hcl]
      | some clone => simp [buildTick, ALWAYS_TICK, hcl]
  refine ⟨hlen, ?_, ?_, ?_⟩
  · rintro rfl rfl
    simp [buildTick, ALWAYS_TICK, cloneLastRowWithNewTime]
  · intro last hlast houtcome
    subst houtcome
    have hcl : cloneLastRowWithNewTime series now =
        some { t := now, spot := last.spot,
               days_to_expiry := some (last.days_to_expiry.getD TARGET_DAYS),
               atm_iv := last.atm_iv,
               vega_weighted_iv := last.vega_weighted_iv } := by
      unfold cloneLastRowWithNewTime
      rw [hlast]
    refine ⟨{ t := now, spot := last.spot,
              days_to_expiry := some (last.days_to_expiry.getD TARGET_DAYS),
              atm_iv := last.atm_iv, vega_weighted_iv := last.vega_weighted_iv },
            ?_, rfl, rfl, rfl, rfl, ?_⟩
    · simp [buildTick, ALWAYS_TICK, hcl]
    · intro hdays
      cases hd : last.days_to_expiry with
      | none => exact absurd hd hdays
      | some d => simp [hd]
  · apply List.ne_nil_of_length_pos
    unfold trimSeries
    have hmax : MAX_TS_POINTS = 2000 := rfl
    split_ifs with htrim
    · rw [List.length_drop]
      omega
    · omega

/-- Witness for C1: a cold-start failure seeds the series, and a failure
over a one-row series appends a field-for-field clone with the new
timestamp. -/
theorem c1_tick_forward_witness :
    (([] : List TsRow) = []) ∧ ((none : Option TsRow) = none) ∧
    (buildTick [] 5 none = [seedRow 5]) ∧
    (([⟨0, some 7, some 30, some (1/2), some (1/2)⟩] : List TsRow).getLast? =
        some ⟨0, some 7, some 30, some (1/2), some (1/2)⟩) ∧
    (∃ r, buildTick [⟨0, some 7, some 30, some (1/2), some (1/2)⟩] 5 none =
        [⟨0, some 7, some 30, some (1/2), some (1/2)⟩] ++ [r] ∧ r.t = 5 ∧
        r.spot = (⟨0, some 7, some 30, some (1/2), some (1/2)⟩ : TsRow).spot ∧
        r.atm_iv = (⟨0, some 7, some 30, some (1/2), some (1/2)⟩ : TsRow).atm_iv ∧
        r.vega_weighted_iv =
          (⟨0, some 7, some 30, some (1/2), some (1/2)⟩ : TsRow).vega_weighted_iv ∧
        ((⟨0, some 7, some 30, some (1/2), some (1/2)⟩ : TsRow).days_to_expiry ≠ none →
          r.days_to_expiry =
            (⟨0, some 7, some 30, some (1/2), some (1/2)⟩ : TsRow).days_to_expiry)) :=
  ⟨rfl, rfl,
   (c1_tick_forward [] 5 none).2.1 rfl rfl,
   rfl,
   (c1_tick_forward [⟨0, some 7, some 30, some (1/2), some (1/2)⟩] 5 none).2.2.1
     ⟨0, some 7, some 30, some (1/2), some (1/2)⟩ rfl rfl⟩

/- ================================================================
   Spot-price resolution fallback chain
   (src/scripts/fetchOptionsData.js lines 234-260):

   `let S = await getSpotFromCoingecko(symbol);
    if (!S) S = await getSpotFromDeribitIndex(symbol);
    ...
    if (!S && prevSeries.length) S = Number(prevSeries[...].spot) || null;
    ...
    if (!S && instruments.length){ ...median strike of the target expiry... }
    if (!S) S = 100;`

   Numbers are modelled by `ℚ` (every JSON number is finite; the
   `Number(...) || null` NaN path maps to `none`).
   ================================================================ -/

/-- A Deribit option instrument as consumed by the spot estimator. -/
structure Instrument where
  is_active : Bool
  expiration_timestamp : ℚ
  strike : ℚ
  deriving DecidableEq

/-- One day in milliseconds. -/
def DAY_MS : ℚ := 86400000

/-- JS truthiness of a number-or-null: `!S` holds exactly for `null`, `0`
(and `NaN`, which cannot arise in this exact model). -/
def truthy : Option ℚ → Bool
  | none => false
  | some v => decide (v ≠ 0)

/-- `Number(prevSeries[prevSeries.length-1].spot) || null`
(src/scripts/fetchOptionsData.js line 238): the last row's spot when
present and nonzero (`Number(null) = 0` and `Number(undefined) = NaN` both
fall through to `null`). -/
def lastSpotNum (prevSpots : List (Option ℚ)) : Option ℚ :=
  match prevSpots.getLast? with
  | none => none
  | some none => none
  | some (some v) => if v = 0 then none else some v

/-- Proximity-to-30-days ordering used by the expiry sort
(src/scripts/fetchOptionsData.js lines 246-248). -/
def proxRel (now : ℚ) (a b : Instrument) : Prop :=
  |a.expiration_timestamp - now - 30*DAY_MS| ≤ |b.expiration_timestamp - now - 30*DAY_MS|

instance (now : ℚ) : DecidableRel (proxRel now) :=
  fun _ _ => inferInstanceAs (Decidable (_ ≤ _))

/-- The strike-median spot estimate of
src/scripts/fetchOptionsData.js lines 244-258: among active instruments
expiring more than a day out, pick the expiry closest to the 30-day target
(stable sort, as V8), and return the middle strike (ascending order) of the
active instruments at that expiry; `none` when any step finds nothing.
The JS `if (tgt)` makes a zero timestamp falsy, and the
`filter(Number.isFinite)` on strikes is a no-op over `ℚ`. -/
def estimateSpotFromStrikes (insts : List Instrument) (now : ℚ) : Option ℚ :=
  let byProx := (insts.filter
      (fun x => x.is_active && decide (now + DAY_MS < x.expiration_timestamp))).insertionSort
      (proxRel now)
  match byProx.head? with
  | none => none
  | some top =>
      if top.expiration_timestamp = 0 then none
      else
        let rawAtT := insts.filter
          (fun x => decide (x.expiration_timestamp = top.expiration_timestamp) && x.is_active)
        if rawAtT.isEmpty then none
        else
          let strikes := (rawAtT.map (fun x => x.strike)).insertionSort (· ≤ ·)
          strikes.get? (strikes.length / 2)

/-- The spot fallback chain of `buildForAsset`
(src/scripts/fetchOptionsData.js lines 234-260), as a function of the
primary (CoinGecko) result, the secondary (Deribit index) result, the
stored series' spot column, and the instrument list.  Each `if (!S)`
reassignment is one `let` stage. -/
def resolveSpot (cg idx : Option ℚ) (prevSpots : List (Option ℚ))
    (insts : List Instrument) (now : ℚ) : ℚ :=
  let s2 := if truthy cg then cg else idx
  let s3 := if !truthy s2 && !prevSpots.isEmpty then lastSpotNum prevSpots else s2
  let s4 := if !truthy s3 && !insts.isEmpty then
      (match estimateSpotFromStrikes insts now with
       | some m => some m
       | none => s3)
    else s3
  if truthy s4 then s4.getD 0 else 100

/-- The first source yielding a finite positive number. -/
def firstPos : List (Option ℚ) → Option ℚ
  | [] => none
  | o :: rest =>
      match o with
      | some v => if 0 < v then some v else firstPos rest
      | none => firstPos rest

/-- The claim's chain, following the spec's words: primary feed, secondary
feed, last known spot from the stored series, then the fixed neutral
constant, stopping at the first source that returns a finite positive
number. -/
def specSpotChain (cg idx lastKnown : Option ℚ) : ℚ :=
  (firstPos [cg, idx, lastKnown]).getD 100

/-- The first source yielding a truthy (nonzero) number. -/
def firstTruthy : List (Option ℚ) → Option ℚ
  | [] => none
  | o :: rest => if truthy o then o else firstTruthy rest

/-- Counterexample to C4 as stated: with the primary feed returning the
nonzero, non-positive value -5 and the secondary feed returning 42, the
code stops at -5 (JS truthiness accepts any nonzero number), while the
claimed stop-at-first-finite-positive chain would return 42. -/
theorem c4_spot_chain_counterexample :
    resolveSpot (some (-5)) (some 42) [] [] 0 = -5 ∧
    specSpotChain (some (-5)) (some 42) none = 42 ∧
    resolveSpot (some (-5)) (some 42) [] [] 0 ≠
      specSpotChain (some (-5)) (some 42) none := by
  refine ⟨?_, ?_, ?_⟩ <;> decide

lemma truthy_getD {o : Option ℚ} (h : truthy o = true) (d1 d2 : ℚ) :
    o.getD d1 = o.getD d2 := by
  cases o with
  | none => simp [truthy] at h
  | some v => rfl

/-- C4 amended.  Spot resolution consults, in order: primary feed,
secondary feed, last known stored spot, then (only when instruments are
available) the median-strike estimate, then the fixed constant 100; each
stage is consulted only when every earlier stage produced no value or the
value 0, and the chain stops at the first stage yielding any nonzero
number (JS truthiness), not only positive ones. -/
theorem c4_spot_chain_amended :
    ∀ (cg idx : Option ℚ) (prevSpots : List (Option ℚ))
      (insts : List Instrument) (now : ℚ),
      resolveSpot cg idx prevSpots insts now =
        (firstTruthy [cg, idx,
          if prevSpots.isEmpty then none else lastSpotNum prevSpots,
          if insts.isEmpty then none
          else estimateSpotFromStrikes insts now]).getD 100 := by
  intro cg idx prevSpots insts now
  by_cases h1 : truthy cg = true
  · simp only [resolveSpot, firstTruthy, h1, if_true, Bool.not_true,
      Bool.false_and, Bool.false_eq_true, if_false]
    exact truthy_getD h1 0 100
  · rw [Bool.not_eq_true] at h1
    by_cases h2 : truthy idx = true
    · simp only [resolveSpot, firstTruthy, h1, Bool.false_eq_true, if_false,
        h2, if_true, Bool.not_true, Bool.false_and]
      exact truthy_getD h2 0 100
    · rw [Bool.not_eq_true] at h2
      -- neither live feed is truthy; the chain state after stage 2 is `idx`
      by_cases h3p : prevSpots.isEmpty
      · -- no stored series: stage 3 keeps the (non-truthy) idx
        by_cases h4i : insts.isEmpty
        · simp [resolveSpot, firstTruthy, h1, h2, h3p, h4i]
        · cases hest : estimateSpotFromStrikes insts now with
          | none => simp [resolveSpot, firstTruthy, h1, h2, h3p, h4i, hest]
          | some m =>
            by_cases hm : truthy (some m) = true
            · simp only [resolveSpot, firstTruthy, h1, h2, h3p, h4i, hest,
                Bool.false_eq_true, if_false, Bool.not_false, Bool.and_true,
                Bool.and_false, Bool.true_and, if_true, Bool.not_true,
                List.isEmpty_eq_true, hm, eq_self_iff_true]
              simp [h1, h2, h3p, h4i, hest, hm, truthy_getD hm 0 100,
                show truthy (none : Option ℚ) = false from rfl]
            · rw [Bool.not_eq_true] at hm
              simp [resolveSpot, firstTruthy, h1, h2, h3p, h4i, hest, hm]
      · -- stored series present: stage 3 state is `lastSpotNum prevSpots`
        by_cases h3 : truthy (lastSpotNum prevSpots) = true
        · simp [resolveSpot, firstTruthy, h1, h2, h3p, h3,
            truthy_getD h3 0 100]
        · rw [Bool.not_eq_true] at h3
          by_cases h4i : insts.isEmpty
          · simp [resolveSpot, firstTruthy, h1, h2, h3p, h3, h4i]
          · cases hest : estimateSpotFromStrikes insts now with
            | none => simp [resolveSpot, firstTruthy, h1, h2, h3p, h3, h4i, hest]
            | some m =>
              by_cases hm : truthy (some m) = true
              · simp [resolveSpot, firstTruthy, h1, h2, h3p, h3, h4i, hest, hm,
                  truthy_getD hm 0 100]
              · rw [Bool.not_eq_true] at hm
                simp [resolveSpot, firstTruthy, h1, h2, h3p, h3, h4i, hest, hm]

end CVI
